import Mathlib

/-!
Verification of the `containersResolver` package (Checkmarx/containers-resolver).

The package is a five-step orchestration pipeline around two external
collaborators (an images extractor and a syft packages extractor).  We embed
the control flow of `Resolve`, `validate` and `cleanup` shallowly: every
collaborator call is an oracle drawn from an explicit environment `Env`
(mirroring Go's value-plus-error return style with `Option Err` for `error`),
and each run additionally records the list of collaborator calls it performed
(a `CallEvent` trace), so that claims about calls never happening are statable.

Two revisions of `containerScanner.go` appear in the repository snapshot; the
primary one (the "richer" variant, using `AnalyzeImagesWithPlatform` and the
warn-and-continue `cleanup`) is embedded as `Resolve` / `validate` / `cleanup`,
and the second revision's `cleanup` (which deletes only when all three path
conditions hold) as `cleanupV2`.
-/

/-- Abstract Go `error` value (non-nil case); `Option Err` models `error`. -/
structure Err where
  msg : String
deriving DecidableEq, Repr

/-- Opaque `types.FileImages` value produced by the external extractor; the
resolver never inspects it, so it is a token. -/
structure FileImages where
  tag : Nat
deriving DecidableEq, Repr

/-- Opaque settings-files map (`map[string]map[string]string`), a token. -/
structure SettingsFiles where
  tag : Nat
deriving DecidableEq, Repr

/-- Image model (`types.ImageModel`): the resolver only constructs these from
image name strings via `types.ToImageModels`. -/
structure ImageModel where
  name : String
deriving DecidableEq, Repr

/-- Opaque analysis result (`[]*syftPackagesExtractor.ContainerResolution`),
written verbatim to disk; a token. -/
structure ContainerResolution where
  tag : Nat
deriving DecidableEq, Repr

/-- Model of `types.ToImageModels` (external collaborator library): canonical
image models from explicit image names.  The resolver passes the result through
unchanged, so only its arity matters here. -/
def ToImageModels (images : List String) : List ImageModel :=
  images.map (fun n => { name := n })

/-- Model of Go `filepath.Join` on two already-clean components. -/
def goJoin (a b : String) : String :=
  if a = "" then b else if b = "" then a else a ++ "/" ++ b

/-- The results subdirectory `filepath.Join(p, ".checkmarx", "containers")`
that `validate` creates under the resolution folder. -/
def checkmarxPathOf (p : String) : String :=
  goJoin (goJoin p ".checkmarx") "containers"

/-- One collaborator call performed during a run, in program order. -/
inductive CallEvent where
  | extractFilesCall (scanPath : String)
  | extractAndMergeCall (files : FileImages) (images : List ImageModel)
      (settings : SettingsFiles)
  | analyzeWithPlatformCall (images : List ImageModel) (platform : String)
  | saveObjectCall (folderPath : String)
  | mkdirAllCall (path : String)
  | deleteDirCall (path : String)
  | cleanupEnter (originalPath outputPath checkmarxPath : String)
deriving DecidableEq, Repr

/-- Environment of collaborator behaviours.  Each field mirrors one external
function the resolver calls, in Go's value-and-error return style. -/
structure Env where
  isValidFolderPath : String → Bool × Option Err
  mkdirAll : String → Option Err
  extractFiles : String → FileImages × SettingsFiles × String × Option Err
  extractAndMergeImagesFromFiles :
      FileImages → List ImageModel → SettingsFiles → List ImageModel × Option Err
  analyzeImagesWithPlatform :
      List ImageModel → String → ContainerResolution × Option Err
  saveObjectToFile : String → ContainerResolution → Option Err
  deleteDirectory : String → Option Err

/-- Model of `validate` (primary variant): checks the resolution folder, then creates
`<p>/.checkmarx/containers` and returns its path.  Returns `("", err)` when
the validity check errs or reports not-valid (`err` may be `none` there).
The Windows-only hide step merely logs and is a no-op elsewhere; it is
omitted. -/
def validate (env : Env) (resolutionFolderPath : String) :
    (String × Option Err) × List CallEvent :=
  match env.isValidFolderPath resolutionFolderPath with
  | (isValidFolderPath, verr) =>
    if verr.isSome ∨ isValidFolderPath = false then
      (("", verr), [])
    else
      let checkmarxFolderPath := goJoin resolutionFolderPath ".checkmarx"
      let checkmarxPath := goJoin checkmarxFolderPath "containers"
      match env.mkdirAll checkmarxPath with
      | some e => (("", some e), [CallEvent.mkdirAllCall checkmarxPath])
      | none => ((checkmarxPath, none), [CallEvent.mkdirAllCall checkmarxPath])

/-- Model of `cleanup` (primary variant): deletes the extractor output directory when
it is non-empty and differs from the original path, keeping that deletion's
error; deletes the `.checkmarx/containers` directory when its path is
non-empty, only logging its error.  Returns only the output-directory
deletion's error. -/
def cleanup (env : Env) (originalPath outputPath checkmarxPath : String) :
    Option Err × List CallEvent :=
  let (err, tr1) :=
    if outputPath ≠ "" ∧ outputPath ≠ originalPath then
      (env.deleteDirectory outputPath, [CallEvent.deleteDirCall outputPath])
    else (none, [])
  let tr2 :=
    if checkmarxPath ≠ "" then [CallEvent.deleteDirCall checkmarxPath] else []
  (err, tr1 ++ tr2)

/-- Model of `cleanup` (second revision, lines 237-250): both deletions happen only
when the output path is non-empty, differs from the original path, and the
checkmarx path is non-empty; the output-directory error takes precedence over
the checkmarx-directory error. -/
def cleanupV2 (env : Env) (originalPath outputPath checkmarxPath : String) :
    Option Err × List CallEvent :=
  if outputPath ≠ "" ∧ outputPath ≠ originalPath ∧ checkmarxPath ≠ "" then
    let err := env.deleteDirectory outputPath
    let cxErr := env.deleteDirectory checkmarxPath
    let tr := [CallEvent.deleteDirCall outputPath,
               CallEvent.deleteDirCall checkmarxPath]
    match err with
    | some e => (some e, tr)
    | none =>
      match cxErr with
      | some e => (some e, tr)
      | none => (none, tr)
  else (none, [])

/-- Model of `Resolve` (primary variant): validate, extract files, merge images,
analyze with platform "linux/amd64", save, cleanup; each step's non-nil error
is returned immediately.  The `isDebug` flag only configures logging. -/
def Resolve (env : Env) (scanPath resolutionFolderPath : String)
    (images : List String) (isDebug : Bool) : Option Err × List CallEvent :=
  match validate env resolutionFolderPath with
  | ((checkmarxPath, verr), tr0) =>
    match verr with
    | some e => (some e, tr0)
    | none =>
      match env.extractFiles scanPath with
      | (filesWithImages, settingsFiles, outputPath, xerr) =>
        let tr1 := tr0 ++ [CallEvent.extractFilesCall scanPath]
        match xerr with
        | some e => (some e, tr1)
        | none =>
          match env.extractAndMergeImagesFromFiles filesWithImages
              (ToImageModels images) settingsFiles with
          | (imagesToAnalyze, merr) =>
            let tr2 := tr1 ++ [CallEvent.extractAndMergeCall filesWithImages
                (ToImageModels images) settingsFiles]
            match merr with
            | some e => (some e, tr2)
            | none =>
              match env.analyzeImagesWithPlatform imagesToAnalyze
                  "linux/amd64" with
              | (resolutionResult, aerr) =>
                let tr3 := tr2 ++ [CallEvent.analyzeWithPlatformCall
                    imagesToAnalyze "linux/amd64"]
                match aerr with
                | some e => (some e, tr3)
                | none =>
                  let serr :=
                    env.saveObjectToFile checkmarxPath resolutionResult
                  let tr4 := tr3 ++ [CallEvent.saveObjectCall checkmarxPath]
                  match serr with
                  | some e => (some e, tr4)
                  | none =>
                    match cleanup env resolutionFolderPath outputPath
                        checkmarxPath with
                    | (cerr, trc) =>
                      let tr5 := tr4 ++ [CallEvent.cleanupEnter
                          resolutionFolderPath outputPath checkmarxPath] ++ trc
                      match cerr with
                      | some e => (some e, tr5)
                      | none => (none, tr5)

/-- Whether a trace contains any of the four collaborator pipeline calls
(extract, merge, analyze, save). -/
def hasCollaboratorCall (tr : List CallEvent) : Bool :=
  tr.any fun ev =>
    match ev with
    | CallEvent.extractFilesCall _ => true
    | CallEvent.extractAndMergeCall _ _ _ => true
    | CallEvent.analyzeWithPlatformCall _ _ => true
    | CallEvent.saveObjectCall _ => true
    | _ => false

/-- Whether a trace contains a merge call. -/
def hasMergeCall (tr : List CallEvent) : Bool :=
  tr.any fun ev =>
    match ev with
    | CallEvent.extractAndMergeCall _ _ _ => true
    | _ => false

/-- Whether a trace contains an analysis call. -/
def hasAnalyzeCall (tr : List CallEvent) : Bool :=
  tr.any fun ev =>
    match ev with
    | CallEvent.analyzeWithPlatformCall _ _ => true
    | _ => false

/-- Whether a trace contains a save call. -/
def hasSaveCall (tr : List CallEvent) : Bool :=
  tr.any fun ev =>
    match ev with
    | CallEvent.saveObjectCall _ => true
    | _ => false

/-- Whether a trace contains a delete-directory call. -/
def hasDeleteCall (tr : List CallEvent) : Bool :=
  tr.any fun ev =>
    match ev with
    | CallEvent.deleteDirCall _ => true
    | _ => false

/-- Environment in which every collaborator call succeeds. -/
def goodEnv : Env where
  isValidFolderPath := fun _ => (true, none)
  mkdirAll := fun _ => none
  extractFiles := fun _ => (⟨0⟩, ⟨0⟩, "/output/path", none)
  extractAndMergeImagesFromFiles := fun _ _ _ => ([⟨"image1"⟩], none)
  analyzeImagesWithPlatform := fun _ _ => (⟨1⟩, none)
  saveObjectToFile := fun _ _ => none
  deleteDirectory := fun _ => none


/-- Error returned by the validity check on an empty path (as in the test). -/
def errStat : Err := ⟨"stat : no such file or directory"⟩

/-- Error used for a failing file-discovery call. -/
def errExtract : Err := ⟨"invalid path"⟩

/-- Error used for a failing analysis call. -/
def errAnalyze : Err := ⟨"error analyzing images"⟩

/-- Error used for a failing persistence call. -/
def errSave : Err := ⟨"could not save resolution result"⟩

/-- Error used for a failing directory deletion. -/
def errDel : Err := ⟨"could not delete directory"⟩

/-- Environment whose validity check fails with a filesystem error. -/
def envInvalidPath : Env :=
  { goodEnv with isValidFolderPath := fun _ => (false, some errStat) }

/-- Environment whose validity check reports not-valid with a nil error. -/
def envInvalidNil : Env :=
  { goodEnv with isValidFolderPath := fun _ => (false, none) }

/-- Environment whose file discovery fails. -/
def envExtractErr : Env :=
  { goodEnv with extractFiles := fun _ => (⟨0⟩, ⟨0⟩, "/output/path", some errExtract) }

/-- Environment whose analysis call fails. -/
def envAnalyzeErr : Env :=
  { goodEnv with analyzeImagesWithPlatform := fun _ _ => (⟨1⟩, some errAnalyze) }

/-- Environment whose persistence call fails. -/
def envSaveErr : Env :=
  { goodEnv with saveObjectToFile := fun _ _ => some errSave }

/-- Environment in which deleting the extractor output directory fails. -/
def envOutDelErr : Env :=
  { goodEnv with deleteDirectory :=
      fun q => if q = "/output/path" then some errDel else none }

/-- Environment in which deleting the results subdirectory fails. -/
def envCxDelErr : Env :=
  { goodEnv with deleteDirectory :=
      fun q => if q = checkmarxPathOf "folder" then some errDel else none }

theorem goJoin_empty_left (b : String) : goJoin "" b = b := by
  simp [goJoin]

theorem goJoin_eq_append (a b : String) (ha : a ≠ "") (hb : b ≠ "") :
    goJoin a b = a ++ "/" ++ b := by
  simp [goJoin, ha, hb]

theorem append_slash_ne_empty (a b : String) : a ++ "/" ++ b ≠ "" := by
  intro hc
  have h := congrArg String.length hc
  have h1 : ("/" : String).length = 1 := rfl
  have h0 : ("" : String).length = 0 := rfl
  simp only [String.length_append] at h
  omega

theorem checkmarxPathOf_ne_empty (p : String) : checkmarxPathOf p ≠ "" := by
  unfold checkmarxPathOf
  rcases eq_or_ne (goJoin p ".checkmarx") "" with h | h
  · rw [h, goJoin_empty_left]
    decide
  · rw [goJoin_eq_append _ _ h (by decide)]
    exact append_slash_ne_empty _ _

theorem checkmarxPathOf_length_gt (p : String) :
    p.length < (checkmarxPathOf p).length := by
  unfold checkmarxPathOf
  rcases eq_or_ne p "" with hp | hp
  · subst hp
    rw [goJoin_empty_left, goJoin_eq_append _ _ (by decide) (by decide)]
    decide
  · rw [goJoin_eq_append _ _ hp (by decide),
      goJoin_eq_append _ _ (append_slash_ne_empty _ _) (by decide)]
    have h1 : ("/" : String).length = 1 := rfl
    have h2 : (".checkmarx" : String).length = 10 := rfl
    have h3 : ("containers" : String).length = 10 := rfl
    simp only [String.length_append]
    omega

theorem checkmarxPathOf_ne_self (p : String) : checkmarxPathOf p ≠ p := by
  intro hc
  have := congrArg String.length hc
  have hlt := checkmarxPathOf_length_gt p
  omega

theorem validate_check_err (env : Env) (p : String) (b : Bool) (e : Err)
    (hv : env.isValidFolderPath p = (b, some e)) :
    validate env p = (("", some e), []) := by
  simp [validate, hv]

theorem validate_invalid_none (env : Env) (p : String)
    (hv : env.isValidFolderPath p = (false, none)) :
    validate env p = (("", none), []) := by
  simp [validate, hv]

theorem validate_mkdir_err (env : Env) (p : String) (e : Err)
    (hv : env.isValidFolderPath p = (true, none))
    (hm : env.mkdirAll (checkmarxPathOf p) = some e) :
    validate env p =
      (("", some e), [CallEvent.mkdirAllCall (checkmarxPathOf p)]) := by
  simp only [checkmarxPathOf] at hm ⊢
  simp [validate, hv, hm]

theorem validate_ok (env : Env) (p : String)
    (hv : env.isValidFolderPath p = (true, none))
    (hm : env.mkdirAll (checkmarxPathOf p) = none) :
    validate env p =
      ((checkmarxPathOf p, none),
       [CallEvent.mkdirAllCall (checkmarxPathOf p)]) := by
  simp only [checkmarxPathOf] at hm ⊢
  simp [validate, hv, hm]

theorem Resolve_validate_err (env : Env) (s p : String) (imgs : List String)
    (dbg : Bool) (cx : String) (e : Err) (tr0 : List CallEvent)
    (hval : validate env p = ((cx, some e), tr0)) :
    Resolve env s p imgs dbg = (some e, tr0) := by
  simp [Resolve, hval]

theorem Resolve_extract_err (env : Env) (s p : String) (imgs : List String)
    (dbg : Bool) (cx : String) (tr0 : List CallEvent)
    (f : FileImages) (st : SettingsFiles) (out : String) (e : Err)
    (hval : validate env p = ((cx, none), tr0))
    (hx : env.extractFiles s = (f, st, out, some e)) :
    Resolve env s p imgs dbg =
      (some e, tr0 ++ [CallEvent.extractFilesCall s]) := by
  simp [Resolve, hval, hx]

theorem Resolve_merge_err (env : Env) (s p : String) (imgs : List String)
    (dbg : Bool) (cx : String) (tr0 : List CallEvent)
    (f : FileImages) (st : SettingsFiles) (out : String)
    (ims : List ImageModel) (e : Err)
    (hval : validate env p = ((cx, none), tr0))
    (hx : env.extractFiles s = (f, st, out, none))
    (hg : env.extractAndMergeImagesFromFiles f (ToImageModels imgs) st =
      (ims, some e)) :
    Resolve env s p imgs dbg =
      (some e, tr0 ++ [CallEvent.extractFilesCall s,
        CallEvent.extractAndMergeCall f (ToImageModels imgs) st]) := by
  simp [Resolve, hval, hx, hg]

theorem Resolve_analyze_err (env : Env) (s p : String) (imgs : List String)
    (dbg : Bool) (cx : String) (tr0 : List CallEvent)
    (f : FileImages) (st : SettingsFiles) (out : String)
    (ims : List ImageModel) (r : ContainerResolution) (e : Err)
    (hval : validate env p = ((cx, none), tr0))
    (hx : env.extractFiles s = (f, st, out, none))
    (hg : env.extractAndMergeImagesFromFiles f (ToImageModels imgs) st =
      (ims, none))
    (ha : env.analyzeImagesWithPlatform ims "linux/amd64" = (r, some e)) :
    Resolve env s p imgs dbg =
      (some e, tr0 ++ [CallEvent.extractFilesCall s,
        CallEvent.extractAndMergeCall f (ToImageModels imgs) st,
        CallEvent.analyzeWithPlatformCall ims "linux/amd64"]) := by
  simp [Resolve, hval, hx, hg, ha]

theorem Resolve_save_err (env : Env) (s p : String) (imgs : List String)
    (dbg : Bool) (cx : String) (tr0 : List CallEvent)
    (f : FileImages) (st : SettingsFiles) (out : String)
    (ims : List ImageModel) (r : ContainerResolution) (e : Err)
    (hval : validate env p = ((cx, none), tr0))
    (hx : env.extractFiles s = (f, st, out, none))
    (hg : env.extractAndMergeImagesFromFiles f (ToImageModels imgs) st =
      (ims, none))
    (ha : env.analyzeImagesWithPlatform ims "linux/amd64" = (r, none))
    (hs : env.saveObjectToFile cx r = some e) :
    Resolve env s p imgs dbg =
      (some e, tr0 ++ [CallEvent.extractFilesCall s,
        CallEvent.extractAndMergeCall f (ToImageModels imgs) st,
        CallEvent.analyzeWithPlatformCall ims "linux/amd64",
        CallEvent.saveObjectCall cx]) := by
  simp [Resolve, hval, hx, hg, ha, hs]

theorem Resolve_after_save (env : Env) (s p : String) (imgs : List String)
    (dbg : Bool) (cx : String) (tr0 : List CallEvent)
    (f : FileImages) (st : SettingsFiles) (out : String)
    (ims : List ImageModel) (r : ContainerResolution)
    (hval : validate env p = ((cx, none), tr0))
    (hx : env.extractFiles s = (f, st, out, none))
    (hg : env.extractAndMergeImagesFromFiles f (ToImageModels imgs) st =
      (ims, none))
    (ha : env.analyzeImagesWithPlatform ims "linux/amd64" = (r, none))
    (hs : env.saveObjectToFile cx r = none) :
    Resolve env s p imgs dbg =
      ((cleanup env p out cx).1,
       tr0 ++ [CallEvent.extractFilesCall s,
        CallEvent.extractAndMergeCall f (ToImageModels imgs) st,
        CallEvent.analyzeWithPlatformCall ims "linux/amd64",
        CallEvent.saveObjectCall cx,
        CallEvent.cleanupEnter p out cx] ++ (cleanup env p out cx).2) := by
  rcases hcl : cleanup env p out cx with ⟨cerr, trc⟩
  cases cerr <;> simp [Resolve, hval, hx, hg, ha, hs, hcl]

theorem cleanup_fst_eq (env : Env) (o out cx : String) :
    (cleanup env o out cx).1 =
      if out ≠ "" ∧ out ≠ o then env.deleteDirectory out else none := by
  by_cases h : out ≠ "" ∧ out ≠ o <;> simp [cleanup, h]

theorem cleanup_snd_eq (env : Env) (o out cx : String) :
    (cleanup env o out cx).2 =
      (if out ≠ "" ∧ out ≠ o then [CallEvent.deleteDirCall out] else []) ++
      (if cx ≠ "" then [CallEvent.deleteDirCall cx] else []) := by
  by_cases h : out ≠ "" ∧ out ≠ o <;>
    by_cases h2 : cx ≠ "" <;> simp [cleanup, h, h2]

theorem cleanupV2_snd_eq (env : Env) (o out cx : String) :
    (cleanupV2 env o out cx).2 =
      if out ≠ "" ∧ out ≠ o ∧ cx ≠ "" then
        [CallEvent.deleteDirCall out, CallEvent.deleteDirCall cx]
      else [] := by
  by_cases h : out ≠ "" ∧ out ≠ o ∧ cx ≠ ""
  · rcases he : env.deleteDirectory out with _ | e <;>
      rcases hc : env.deleteDirectory cx with _ | e2 <;>
      simp [cleanupV2, h, he, hc]
  · simp [cleanupV2, h]

theorem validate_snd_cases (env : Env) (p : String) :
    (validate env p).2 = [] ∨
      ∃ q, (validate env p).2 = [CallEvent.mkdirAllCall q] := by
  rcases hv : env.isValidFolderPath p with ⟨b, verr⟩
  by_cases hc : (verr.isSome ∨ b = false)
  · left; simp [validate, hv, hc]
  · rcases hm : env.mkdirAll (goJoin (goJoin p ".checkmarx") "containers")
      with _ | e <;>
      · right
        refine ⟨goJoin (goJoin p ".checkmarx") "containers", ?_⟩
        simp [validate, hv, hc, hm]

theorem validate_no_merge (env : Env) (p : String) :
    hasMergeCall (validate env p).2 = false := by
  rcases validate_snd_cases env p with h | ⟨q, h⟩ <;> simp [hasMergeCall, h]

theorem validate_no_analyze (env : Env) (p : String) :
    hasAnalyzeCall (validate env p).2 = false := by
  rcases validate_snd_cases env p with h | ⟨q, h⟩ <;> simp [hasAnalyzeCall, h]

theorem validate_no_save (env : Env) (p : String) :
    hasSaveCall (validate env p).2 = false := by
  rcases validate_snd_cases env p with h | ⟨q, h⟩ <;> simp [hasSaveCall, h]

theorem validate_no_delete (env : Env) (p : String) :
    hasDeleteCall (validate env p).2 = false := by
  rcases validate_snd_cases env p with h | ⟨q, h⟩ <;> simp [hasDeleteCall, h]

theorem not_mem_of_hasDeleteCall_false (l : List CallEvent)
    (h : hasDeleteCall l = false) (q : String) :
    CallEvent.deleteDirCall q ∉ l := by
  simp only [hasDeleteCall, List.any_eq_false] at h
  intro hm
  have := h _ hm
  simp at this

theorem validate_fst_cases (env : Env) (p : String) :
    (validate env p).1.1 = "" ∨ (validate env p).1.1 = checkmarxPathOf p := by
  rcases hv : env.isValidFolderPath p with ⟨b, verr⟩
  by_cases hc : (verr.isSome ∨ b = false)
  · left; simp [validate, hv, hc]
  · rcases hm : env.mkdirAll (goJoin (goJoin p ".checkmarx") "containers")
      with _ | e
    · right; simp [validate, hv, hc, hm, checkmarxPathOf]
    · left; simp [validate, hv, hc, hm]

theorem cleanup_no_delete_original (env : Env) (o out cx : String)
    (hcx : cx = "" ∨ cx ≠ o) :
    CallEvent.deleteDirCall o ∉ (cleanup env o out cx).2 := by
  rw [cleanup_snd_eq]
  by_cases h : out ≠ "" ∧ out ≠ o <;> by_cases h2 : cx ≠ "" <;>
    simp [h, h2] <;>
    first
    | (constructor
       · exact fun hh => h.2 hh.symm
       · rcases hcx with hcx | hcx
         · exact absurd hcx h2
         · exact fun hh => hcx hh.symm)
    | (exact fun hh => h.2 hh.symm)
    | (rcases hcx with hcx | hcx
       · exact absurd hcx h2
       · exact fun hh => hcx hh.symm)

theorem resolve_no_delete_original (env : Env) (s p : String)
    (imgs : List String) (dbg : Bool) :
    CallEvent.deleteDirCall p ∉ (Resolve env s p imgs dbg).2 := by
  rcases hval : validate env p with ⟨⟨cx, verr⟩, tr0⟩
  have htr0 : CallEvent.deleteDirCall p ∉ tr0 := by
    apply not_mem_of_hasDeleteCall_false
    have h := validate_no_delete env p
    rw [hval] at h
    exact h
  have hcx : cx = "" ∨ cx ≠ p := by
    have h := validate_fst_cases env p
    rw [hval] at h
    simp only [hval] at h
    rcases h with h | h
    · exact Or.inl h
    · right; rw [h]; exact checkmarxPathOf_ne_self p
  rcases verr with _ | e
  · rcases hx : env.extractFiles s with ⟨f, st, out, xerr⟩
    rcases xerr with _ | e
    · rcases hg : env.extractAndMergeImagesFromFiles f (ToImageModels imgs) st
        with ⟨ims, merr⟩
      rcases merr with _ | e
      · rcases ha : env.analyzeImagesWithPlatform ims "linux/amd64"
          with ⟨r, aerr⟩
        rcases aerr with _ | e
        · rcases hs : env.saveObjectToFile cx r with _ | e
          · rw [Resolve_after_save env s p imgs dbg cx tr0 f st out ims r
              hval hx hg ha hs]
            have hcl := cleanup_no_delete_original env p out cx hcx
            simp [List.mem_append, htr0, hcl]
          · rw [Resolve_save_err env s p imgs dbg cx tr0 f st out ims r e
              hval hx hg ha hs]
            simp [List.mem_append, htr0]
        · rw [Resolve_analyze_err env s p imgs dbg cx tr0 f st out ims r e
            hval hx hg ha]
          simp [List.mem_append, htr0]
      · rw [Resolve_merge_err env s p imgs dbg cx tr0 f st out ims e
          hval hx hg]
        simp [List.mem_append, htr0]
    · rw [Resolve_extract_err env s p imgs dbg cx tr0 f st out e hval hx]
      simp [List.mem_append, htr0]
  · rw [Resolve_validate_err env s p imgs dbg cx e tr0 hval]
    exact htr0

theorem cleanup_no_save (env : Env) (o out cx q : String) :
    CallEvent.saveObjectCall q ∉ (cleanup env o out cx).2 := by
  rw [cleanup_snd_eq]
  by_cases h : out ≠ "" ∧ out ≠ o <;> by_cases h2 : cx ≠ "" <;> simp [h, h2]

/-- Claim C1: whenever the resolution folder is invalid — the folder-validity
check returns a filesystem error, or the check passes but creating the
`.checkmarx/containers` subdirectory fails — `Resolve` returns exactly the
underlying error and performs none of the four collaborator calls
(ExtractFiles, ExtractAndMergeImagesFromFiles, AnalyzeImagesWithPlatform,
SaveObjectToFile). -/
theorem c1_invalid_resolution_folder (env : Env) (s p : String)
    (imgs : List String) (dbg : Bool) (e : Err)
    (h : (∃ b, env.isValidFolderPath p = (b, some e)) ∨
         (env.isValidFolderPath p = (true, none) ∧
          env.mkdirAll (checkmarxPathOf p) = some e)) :
    (Resolve env s p imgs dbg).1 = some e ∧
    hasCollaboratorCall (Resolve env s p imgs dbg).2 = false := by
  rcases h with ⟨b, hb⟩ | ⟨hv, hm⟩
  · rw [Resolve_validate_err env s p imgs dbg "" e []
      (validate_check_err env p b e hb)]
    exact ⟨rfl, rfl⟩
  · rw [Resolve_validate_err env s p imgs dbg "" e
      [CallEvent.mkdirAllCall (checkmarxPathOf p)]
      (validate_mkdir_err env p e hv hm)]
    exact ⟨rfl, by simp [hasCollaboratorCall]⟩

/-- Witness for C1: an empty resolution folder path whose validity check
fails with a stat error. -/
theorem c1_invalid_resolution_folder_witness :
    (Resolve envInvalidPath "../../test_files" "" ["image1", "image2"]
        false).1 = some errStat ∧
    hasCollaboratorCall
      (Resolve envInvalidPath "../../test_files" "" ["image1", "image2"]
        false).2 = false :=
  c1_invalid_resolution_folder envInvalidPath "../../test_files" ""
    ["image1", "image2"] false errStat (Or.inl ⟨false, rfl⟩)

/-- Claim C5: if file discovery (ExtractFiles) returns an error, `Resolve`
returns exactly that error and the trace contains no merge and no analysis
call. -/
theorem c5_extract_error_stops_pipeline (env : Env) (s p : String)
    (imgs : List String) (dbg : Bool) (cx : String) (tr0 : List CallEvent)
    (f : FileImages) (st : SettingsFiles) (out : String) (e : Err)
    (hval : validate env p = ((cx, none), tr0))
    (hx : env.extractFiles s = (f, st, out, some e)) :
    (Resolve env s p imgs dbg).1 = some e ∧
    hasMergeCall (Resolve env s p imgs dbg).2 = false ∧
    hasAnalyzeCall (Resolve env s p imgs dbg).2 = false := by
  have hm0 : hasMergeCall tr0 = false := by
    have h := validate_no_merge env p; rw [hval] at h; exact h
  have ha0 : hasAnalyzeCall tr0 = false := by
    have h := validate_no_analyze env p; rw [hval] at h; exact h
  rw [Resolve_extract_err env s p imgs dbg cx tr0 f st out e hval hx]
  refine ⟨rfl, ?_, ?_⟩
  · have h1 : hasMergeCall (tr0 ++ [CallEvent.extractFilesCall s]) =
        hasMergeCall tr0 := by
      simp [hasMergeCall, List.any_append]
    rw [h1, hm0]
  · have h1 : hasAnalyzeCall (tr0 ++ [CallEvent.extractFilesCall s]) =
        hasAnalyzeCall tr0 := by
      simp [hasAnalyzeCall, List.any_append]
    rw [h1, ha0]

/-- Witness for C5: a concrete environment whose file discovery fails with
"invalid path". -/
theorem c5_extract_error_stops_pipeline_witness :
    (Resolve envExtractErr "scan" "folder" ["image1"] false).1 =
      some errExtract ∧
    hasMergeCall (Resolve envExtractErr "scan" "folder" ["image1"] false).2 =
      false ∧
    hasAnalyzeCall
      (Resolve envExtractErr "scan" "folder" ["image1"] false).2 = false :=
  c5_extract_error_stops_pipeline envExtractErr "scan" "folder" ["image1"]
    false (checkmarxPathOf "folder")
    [CallEvent.mkdirAllCall (checkmarxPathOf "folder")] ⟨0⟩ ⟨0⟩
    "/output/path" errExtract (by decide) (by decide)

/-- Claim C6: if discovery and merge succeed but the analyzer fails,
`Resolve` returns the analyzer's error unchanged, SaveObjectToFile is never
called, and no deletion happens either (nothing is persisted to the results
subdirectory). -/
theorem c6_analyze_error_no_save (env : Env) (s p : String)
    (imgs : List String) (dbg : Bool) (cx : String) (tr0 : List CallEvent)
    (f : FileImages) (st : SettingsFiles) (out : String)
    (ims : List ImageModel) (r : ContainerResolution) (e : Err)
    (hval : validate env p = ((cx, none), tr0))
    (hx : env.extractFiles s = (f, st, out, none))
    (hg : env.extractAndMergeImagesFromFiles f (ToImageModels imgs) st =
      (ims, none))
    (ha : env.analyzeImagesWithPlatform ims "linux/amd64" = (r, some e)) :
    (Resolve env s p imgs dbg).1 = some e ∧
    hasSaveCall (Resolve env s p imgs dbg).2 = false ∧
    hasDeleteCall (Resolve env s p imgs dbg).2 = false := by
  have hs0 : hasSaveCall tr0 = false := by
    have h := validate_no_save env p; rw [hval] at h; exact h
  have hd0 : hasDeleteCall tr0 = false := by
    have h := validate_no_delete env p; rw [hval] at h; exact h
  rw [Resolve_analyze_err env s p imgs dbg cx tr0 f st out ims r e
    hval hx hg ha]
  refine ⟨rfl, ?_, ?_⟩
  · have h1 : hasSaveCall (tr0 ++ [CallEvent.extractFilesCall s,
        CallEvent.extractAndMergeCall f (ToImageModels imgs) st,
        CallEvent.analyzeWithPlatformCall ims "linux/amd64"]) =
        hasSaveCall tr0 := by
      simp [hasSaveCall, List.any_append]
    rw [h1, hs0]
  · have h1 : hasDeleteCall (tr0 ++ [CallEvent.extractFilesCall s,
        CallEvent.extractAndMergeCall f (ToImageModels imgs) st,
        CallEvent.analyzeWithPlatformCall ims "linux/amd64"]) =
        hasDeleteCall tr0 := by
      simp [hasDeleteCall, List.any_append]
    rw [h1, hd0]

/-- Witness for C6: a concrete environment whose analyzer fails. -/
theorem c6_analyze_error_no_save_witness :
    (Resolve envAnalyzeErr "scan" "folder" ["image1"] false).1 =
      some errAnalyze ∧
    hasSaveCall (Resolve envAnalyzeErr "scan" "folder" ["image1"] false).2 =
      false ∧
    hasDeleteCall
      (Resolve envAnalyzeErr "scan" "folder" ["image1"] false).2 = false :=
  c6_analyze_error_no_save envAnalyzeErr "scan" "folder" ["image1"] false
    (checkmarxPathOf "folder")
    [CallEvent.mkdirAllCall (checkmarxPathOf "folder")] ⟨0⟩ ⟨0⟩
    "/output/path" [⟨"image1"⟩] ⟨1⟩ errAnalyze (by decide) (by decide)
    (by decide) (by decide)

/-- Claim C10: in the richer pipeline variant, `cleanup` returns exactly the
error of the output-directory deletion (performed only when the output path
is non-empty and differs from the original path); the error of deleting the
`.checkmarx/containers` subdirectory is never returned, whatever either
deletion's outcome is. -/
theorem c10_cleanup_returns_only_output_error (env : Env) (o out cx : String) :
    (cleanup env o out cx).1 =
      if out ≠ "" ∧ out ≠ o then env.deleteDirectory out else none :=
  cleanup_fst_eq env o out cx

/-- Claim C9: when the folder-validity check reports not-valid with a nil
error, `validate` returns an empty path and nil error, and `Resolve`
proceeds through all four collaborator calls, passing the empty string to
SaveObjectToFile. -/
theorem c9_invalid_nil_proceeds (env : Env) (s p : String)
    (imgs : List String) (dbg : Bool) (f : FileImages) (st : SettingsFiles)
    (out : String) (ims : List ImageModel) (r : ContainerResolution)
    (hv : env.isValidFolderPath p = (false, none))
    (hx : env.extractFiles s = (f, st, out, none))
    (hg : env.extractAndMergeImagesFromFiles f (ToImageModels imgs) st =
      (ims, none))
    (ha : env.analyzeImagesWithPlatform ims "linux/amd64" = (r, none)) :
    validate env p = (("", none), []) ∧
    CallEvent.extractFilesCall s ∈ (Resolve env s p imgs dbg).2 ∧
    CallEvent.extractAndMergeCall f (ToImageModels imgs) st ∈
      (Resolve env s p imgs dbg).2 ∧
    CallEvent.analyzeWithPlatformCall ims "linux/amd64" ∈
      (Resolve env s p imgs dbg).2 ∧
    CallEvent.saveObjectCall "" ∈ (Resolve env s p imgs dbg).2 := by
  have hval := validate_invalid_none env p hv
  refine ⟨hval, ?_⟩
  rcases hs : env.saveObjectToFile "" r with _ | e
  · rw [Resolve_after_save env s p imgs dbg "" [] f st out ims r
      hval hx hg ha hs]
    simp
  · rw [Resolve_save_err env s p imgs dbg "" [] f st out ims r e
      hval hx hg ha hs]
    simp

/-- Witness for C9: concrete not-valid-with-nil-error environment in which
the remaining collaborators succeed. -/
theorem c9_invalid_nil_proceeds_witness :
    validate envInvalidNil "folder" = (("", none), []) ∧
    CallEvent.extractFilesCall "scan" ∈
      (Resolve envInvalidNil "scan" "folder" ["image1"] false).2 ∧
    CallEvent.extractAndMergeCall ⟨0⟩ (ToImageModels ["image1"]) ⟨0⟩ ∈
      (Resolve envInvalidNil "scan" "folder" ["image1"] false).2 ∧
    CallEvent.analyzeWithPlatformCall [⟨"image1"⟩] "linux/amd64" ∈
      (Resolve envInvalidNil "scan" "folder" ["image1"] false).2 ∧
    CallEvent.saveObjectCall "" ∈
      (Resolve envInvalidNil "scan" "folder" ["image1"] false).2 :=
  c9_invalid_nil_proceeds envInvalidNil "scan" "folder" ["image1"] false
    ⟨0⟩ ⟨0⟩ "/output/path" [⟨"image1"⟩] ⟨1⟩ rfl rfl rfl rfl

/-- Claim C7: both cleanup variants delete the extractor output directory
only when it is non-empty and differs from the caller's resolution folder
path; with the checkmarx argument distinct from the resolution folder (as
`Resolve` always passes it), no deletion ever targets the resolution folder,
and a full `Resolve` run never deletes its resolution folder path. -/
theorem c7_cleanup_scope (env : Env) (o out cx s : String)
    (imgs : List String) (dbg : Bool) (hcx : cx ≠ o) :
    (CallEvent.deleteDirCall out ∈ (cleanup env o out cx).2 →
      out ≠ "" ∧ out ≠ o) ∧
    CallEvent.deleteDirCall o ∉ (cleanup env o out cx).2 ∧
    (CallEvent.deleteDirCall out ∈ (cleanupV2 env o out cx).2 →
      out ≠ "" ∧ out ≠ o) ∧
    CallEvent.deleteDirCall o ∉ (cleanupV2 env o out cx).2 ∧
    CallEvent.deleteDirCall o ∉ (Resolve env s o imgs dbg).2 := by
  refine ⟨?_, cleanup_no_delete_original env o out cx (Or.inr hcx), ?_, ?_,
    resolve_no_delete_original env s o imgs dbg⟩
  · rw [cleanup_snd_eq]
    by_cases h : out ≠ "" ∧ out ≠ o
    · exact fun _ => h
    · by_cases h2 : cx ≠ ""
      · rw [if_neg h, if_pos h2]
        simp only [List.nil_append, List.mem_singleton]
        intro he
        injection he with h3
        subst h3
        exact ⟨h2, hcx⟩
      · rw [if_neg h, if_neg h2]
        simp
  · rw [cleanupV2_snd_eq]
    by_cases h : out ≠ "" ∧ out ≠ o ∧ cx ≠ ""
    · rw [if_pos h]
      exact fun _ => ⟨h.1, h.2.1⟩
    · rw [if_neg h]
      simp
  · rw [cleanupV2_snd_eq]
    by_cases h : out ≠ "" ∧ out ≠ o ∧ cx ≠ ""
    · rw [if_pos h]
      intro hmem
      rw [List.mem_cons, List.mem_singleton] at hmem
      rcases hmem with hmem | hmem
      · injection hmem with h3
        exact h.2.1 h3.symm
      · injection hmem with h3
        exact hcx h3.symm
    · rw [if_neg h]
      simp

/-- Witness for C7 at concrete paths: output "/output/path", resolution
folder "folder", checkmarx path under it. -/
theorem c7_cleanup_scope_witness :
    (CallEvent.deleteDirCall "/output/path" ∈
        (cleanup goodEnv "folder" "/output/path"
          (checkmarxPathOf "folder")).2 →
      "/output/path" ≠ "" ∧ "/output/path" ≠ "folder") ∧
    CallEvent.deleteDirCall "folder" ∉
      (cleanup goodEnv "folder" "/output/path"
        (checkmarxPathOf "folder")).2 ∧
    (CallEvent.deleteDirCall "/output/path" ∈
        (cleanupV2 goodEnv "folder" "/output/path"
          (checkmarxPathOf "folder")).2 →
      "/output/path" ≠ "" ∧ "/output/path" ≠ "folder") ∧
    CallEvent.deleteDirCall "folder" ∉
      (cleanupV2 goodEnv "folder" "/output/path"
        (checkmarxPathOf "folder")).2 ∧
    CallEvent.deleteDirCall "folder" ∉
      (Resolve goodEnv "scan" "folder" ["image1"] false).2 :=
  c7_cleanup_scope goodEnv "folder" "/output/path"
    (checkmarxPathOf "folder") "scan" ["image1"] false (by decide)

/-- Claim C8 (amended): provided the folder-validity check reports the
resolution folder valid, `validate` creates `<p>/.checkmarx/containers` and
returns its path, that path differs from the resolution folder itself, and
any SaveObjectToFile call during `Resolve` uses exactly that path. -/
theorem c8_save_under_checkmarx (env : Env) (s p : String)
    (imgs : List String) (dbg : Bool)
    (hv : env.isValidFolderPath p = (true, none))
    (hm : env.mkdirAll (checkmarxPathOf p) = none) :
    (validate env p).1 = (checkmarxPathOf p, none) ∧
    CallEvent.mkdirAllCall (checkmarxPathOf p) ∈ (validate env p).2 ∧
    checkmarxPathOf p ≠ p ∧
    ∀ q, CallEvent.saveObjectCall q ∈ (Resolve env s p imgs dbg).2 →
      q = checkmarxPathOf p := by
  have hval := validate_ok env p hv hm
  refine ⟨by rw [hval], by rw [hval]; simp, checkmarxPathOf_ne_self p, ?_⟩
  intro q hq
  rcases hx : env.extractFiles s with ⟨f, st, out, xerr⟩
  rcases xerr with _ | e
  · rcases hg : env.extractAndMergeImagesFromFiles f (ToImageModels imgs) st
      with ⟨ims, merr⟩
    rcases merr with _ | e
    · rcases ha : env.analyzeImagesWithPlatform ims "linux/amd64"
        with ⟨r, aerr⟩
      rcases aerr with _ | e
      · rcases hs : env.saveObjectToFile (checkmarxPathOf p) r with _ | e
        · rw [Resolve_after_save env s p imgs dbg (checkmarxPathOf p) _
            f st out ims r hval hx hg ha hs] at hq
          have hns := cleanup_no_save env p out (checkmarxPathOf p) q
          simp only [List.mem_append, List.mem_cons, List.mem_singleton,
            List.not_mem_nil] at hq
          rcases hq with (hq | hq | hq | hq | hq | hq) | hq
          · exact absurd hq (by simp)
          · exact absurd hq (by simp)
          · exact absurd hq (by simp)
          · exact absurd hq (by simp)
          · injection hq
          · exact absurd hq (by simp)
          · exact absurd hq hns
        · rw [Resolve_save_err env s p imgs dbg (checkmarxPathOf p) _
            f st out ims r e hval hx hg ha hs] at hq
          simp at hq
          exact hq
      · rw [Resolve_analyze_err env s p imgs dbg (checkmarxPathOf p) _
          f st out ims r e hval hx hg ha] at hq
        simp at hq
    · rw [Resolve_merge_err env s p imgs dbg (checkmarxPathOf p) _
        f st out ims e hval hx hg] at hq
      simp at hq
  · rw [Resolve_extract_err env s p imgs dbg (checkmarxPathOf p) _
      f st out e hval hx] at hq
    simp at hq

/-- Witness for C8 at a concrete valid folder with all collaborators
succeeding. -/
theorem c8_save_under_checkmarx_witness :
    (validate goodEnv "folder").1 = (checkmarxPathOf "folder", none) ∧
    CallEvent.mkdirAllCall (checkmarxPathOf "folder") ∈
      (validate goodEnv "folder").2 ∧
    checkmarxPathOf "folder" ≠ "folder" ∧
    ∀ q, CallEvent.saveObjectCall q ∈
        (Resolve goodEnv "scan" "folder" ["image1"] false).2 →
      q = checkmarxPathOf "folder" :=
  c8_save_under_checkmarx goodEnv "scan" "folder" ["image1"] false rfl rfl

/-- Counterexample to C8 as stated: when the validity check reports
not-valid with a nil error, `Resolve` still succeeds, but SaveObjectToFile
is called with the empty string, not with the `.checkmarx/containers` path
(which `validate` never created). -/
theorem c8_counterexample :
    (Resolve envInvalidNil "scan" "folder" ["image1"] true).1 = none ∧
    CallEvent.saveObjectCall "" ∈
      (Resolve envInvalidNil "scan" "folder" ["image1"] true).2 ∧
    CallEvent.saveObjectCall (checkmarxPathOf "folder") ∉
      (Resolve envInvalidNil "scan" "folder" ["image1"] true).2 := by
  decide

/-- Claim C2 (amended): cleanup runs only after all four collaborator calls
succeed; when SaveObjectToFile fails, `Resolve` returns that error at once,
entering no cleanup and performing no deletion, while after a successful
save the cleanup sub-operation is entered. -/
theorem c2_cleanup_only_after_success (env : Env) (s p : String)
    (imgs : List String) (dbg : Bool) (f : FileImages) (st : SettingsFiles)
    (out : String) (ims : List ImageModel) (r : ContainerResolution)
    (e : Err)
    (hv : env.isValidFolderPath p = (true, none))
    (hm : env.mkdirAll (checkmarxPathOf p) = none)
    (hx : env.extractFiles s = (f, st, out, none))
    (hg : env.extractAndMergeImagesFromFiles f (ToImageModels imgs) st =
      (ims, none))
    (ha : env.analyzeImagesWithPlatform ims "linux/amd64" = (r, none)) :
    (env.saveObjectToFile (checkmarxPathOf p) r = some e →
      (Resolve env s p imgs dbg).1 = some e ∧
      hasDeleteCall (Resolve env s p imgs dbg).2 = false ∧
      ∀ a b c, CallEvent.cleanupEnter a b c ∉ (Resolve env s p imgs dbg).2) ∧
    (env.saveObjectToFile (checkmarxPathOf p) r = none →
      CallEvent.cleanupEnter p out (checkmarxPathOf p) ∈
        (Resolve env s p imgs dbg).2) := by
  have hval := validate_ok env p hv hm
  constructor
  · intro hs
    rw [Resolve_save_err env s p imgs dbg (checkmarxPathOf p) _
      f st out ims r e hval hx hg ha hs]
    refine ⟨rfl, ?_, ?_⟩
    · simp [hasDeleteCall]
    · intro a b c
      simp
  · intro hs
    rw [Resolve_after_save env s p imgs dbg (checkmarxPathOf p) _
      f st out ims r hval hx hg ha hs]
    simp

/-- Witness for C2's amended claim at a concrete failing save. -/
theorem c2_cleanup_only_after_success_witness :
    (envSaveErr.saveObjectToFile (checkmarxPathOf "folder") ⟨1⟩ =
        some errSave →
      (Resolve envSaveErr "scan" "folder" ["image1"] true).1 = some errSave ∧
      hasDeleteCall
        (Resolve envSaveErr "scan" "folder" ["image1"] true).2 = false ∧
      ∀ a b c, CallEvent.cleanupEnter a b c ∉
        (Resolve envSaveErr "scan" "folder" ["image1"] true).2) ∧
    (envSaveErr.saveObjectToFile (checkmarxPathOf "folder") ⟨1⟩ = none →
      CallEvent.cleanupEnter "folder" "/output/path"
        (checkmarxPathOf "folder") ∈
        (Resolve envSaveErr "scan" "folder" ["image1"] true).2) :=
  c2_cleanup_only_after_success envSaveErr "scan" "folder" ["image1"] true
    ⟨0⟩ ⟨0⟩ "/output/path" [⟨"image1"⟩] ⟨1⟩ errSave rfl rfl rfl rfl rfl

/-- Counterexample to C2 as stated: with a failing SaveObjectToFile and all
earlier steps succeeding, `Resolve` returns the save error without running
cleanup — no deletion happens and cleanup is never entered. -/
theorem c2_counterexample :
    envSaveErr.saveObjectToFile (checkmarxPathOf "folder") ⟨1⟩ =
      some errSave ∧
    (Resolve envSaveErr "scan" "folder" ["image1"] true).1 = some errSave ∧
    hasDeleteCall (Resolve envSaveErr "scan" "folder" ["image1"] true).2 =
      false ∧
    ∀ a b c, CallEvent.cleanupEnter a b c ∉
      (Resolve envSaveErr "scan" "folder" ["image1"] true).2 := by
  have hEq : Resolve envSaveErr "scan" "folder" ["image1"] true =
      (some errSave,
       [CallEvent.mkdirAllCall (checkmarxPathOf "folder"),
        CallEvent.extractFilesCall "scan",
        CallEvent.extractAndMergeCall ⟨0⟩ (ToImageModels ["image1"]) ⟨0⟩,
        CallEvent.analyzeWithPlatformCall [⟨"image1"⟩] "linux/amd64",
        CallEvent.saveObjectCall (checkmarxPathOf "folder")]) := by
    decide
  refine ⟨rfl, ?_, ?_, ?_⟩
  · rw [hEq]
  · rw [hEq]
    simp [hasDeleteCall]
  · intro a b c
    rw [hEq]
    simp

/-- Claim C4 (amended): a failure to delete the results subdirectory never
overrides a prior success — if all four collaborator calls succeeded and the
output-directory deletion (when applicable) did not fail, `Resolve` returns
nil even when the `.checkmarx/containers` deletion fails. -/
theorem c4_cx_delete_failure_not_returned (env : Env) (s p : String)
    (imgs : List String) (dbg : Bool) (f : FileImages) (st : SettingsFiles)
    (out : String) (ims : List ImageModel) (r : ContainerResolution)
    (hv : env.isValidFolderPath p = (true, none))
    (hm : env.mkdirAll (checkmarxPathOf p) = none)
    (hx : env.extractFiles s = (f, st, out, none))
    (hg : env.extractAndMergeImagesFromFiles f (ToImageModels imgs) st =
      (ims, none))
    (ha : env.analyzeImagesWithPlatform ims "linux/amd64" = (r, none))
    (hs : env.saveObjectToFile (checkmarxPathOf p) r = none)
    (hd : out ≠ "" ∧ out ≠ p → env.deleteDirectory out = none) :
    (Resolve env s p imgs dbg).1 = none := by
  have hval := validate_ok env p hv hm
  rw [Resolve_after_save env s p imgs dbg (checkmarxPathOf p) _
    f st out ims r hval hx hg ha hs]
  rw [cleanup_fst_eq]
  by_cases hc : out ≠ "" ∧ out ≠ p
  · rw [if_pos hc]
    exact hd hc
  · rw [if_neg hc]

/-- Witness for C4's amended claim: the results-subdirectory deletion fails
yet `Resolve` returns nil. -/
theorem c4_cx_delete_failure_not_returned_witness :
    (Resolve envCxDelErr "scan" "folder" ["image1"] true).1 = none :=
  c4_cx_delete_failure_not_returned envCxDelErr "scan" "folder" ["image1"]
    true ⟨0⟩ ⟨0⟩ "/output/path" [⟨"image1"⟩] ⟨1⟩ rfl rfl rfl rfl rfl rfl
    (fun _ => by decide)

/-- Counterexample to C4 as stated: all four collaborator calls succeed, yet
a failing output-directory deletion during cleanup makes `Resolve` return
that deletion's error instead of nil. -/
theorem c4_counterexample :
    envOutDelErr.extractFiles "scan" = (⟨0⟩, ⟨0⟩, "/output/path", none) ∧
    envOutDelErr.extractAndMergeImagesFromFiles ⟨0⟩
      (ToImageModels ["image1"]) ⟨0⟩ = ([⟨"image1"⟩], none) ∧
    envOutDelErr.analyzeImagesWithPlatform [⟨"image1"⟩] "linux/amd64" =
      (⟨1⟩, none) ∧
    envOutDelErr.saveObjectToFile (checkmarxPathOf "folder") ⟨1⟩ = none ∧
    (Resolve envOutDelErr "scan" "folder" ["image1"] true).1 =
      some errDel := by
  decide

/-- Claim C3 (amended): for a valid resolution folder, `Resolve` returns no
error iff all four collaborator calls succeed and the applicable cleanup
deletion of the extractor output directory succeeds; after a run that
returns no error, deletion of the results subdirectory has been attempted
(the subdirectory is absent whenever that deletion succeeds). -/
theorem c3_success_iff (env : Env) (s p : String) (imgs : List String)
    (dbg : Bool)
    (hv : env.isValidFolderPath p = (true, none))
    (hm : env.mkdirAll (checkmarxPathOf p) = none) :
    ((Resolve env s p imgs dbg).1 = none ↔
      ∃ f st out ims r,
        env.extractFiles s = (f, st, out, none) ∧
        env.extractAndMergeImagesFromFiles f (ToImageModels imgs) st =
          (ims, none) ∧
        env.analyzeImagesWithPlatform ims "linux/amd64" = (r, none) ∧
        env.saveObjectToFile (checkmarxPathOf p) r = none ∧
        (out ≠ "" ∧ out ≠ p → env.deleteDirectory out = none)) ∧
    ((Resolve env s p imgs dbg).1 = none →
      CallEvent.deleteDirCall (checkmarxPathOf p) ∈
        (Resolve env s p imgs dbg).2) := by
  have hval := validate_ok env p hv hm
  have key : (Resolve env s p imgs dbg).1 = none →
      (∃ f st out ims r,
        env.extractFiles s = (f, st, out, none) ∧
        env.extractAndMergeImagesFromFiles f (ToImageModels imgs) st =
          (ims, none) ∧
        env.analyzeImagesWithPlatform ims "linux/amd64" = (r, none) ∧
        env.saveObjectToFile (checkmarxPathOf p) r = none ∧
        (out ≠ "" ∧ out ≠ p → env.deleteDirectory out = none)) ∧
      CallEvent.deleteDirCall (checkmarxPathOf p) ∈
        (Resolve env s p imgs dbg).2 := by
    intro hnone
    rcases hx : env.extractFiles s with ⟨f, st, out, xerr⟩
    rcases xerr with _ | e
    · rcases hg : env.extractAndMergeImagesFromFiles f (ToImageModels imgs)
        st with ⟨ims, merr⟩
      rcases merr with _ | e
      · rcases ha : env.analyzeImagesWithPlatform ims "linux/amd64"
          with ⟨r, aerr⟩
        rcases aerr with _ | e
        · rcases hs : env.saveObjectToFile (checkmarxPathOf p) r with _ | e
          · have hres := Resolve_after_save env s p imgs dbg
              (checkmarxPathOf p) _ f st out ims r hval hx hg ha hs
            have hcl : (cleanup env p out (checkmarxPathOf p)).1 = none := by
              rw [hres] at hnone
              exact hnone
            constructor
            · refine ⟨f, st, out, ims, r, rfl, hg, ha, hs, ?_⟩
              intro hc
              rw [cleanup_fst_eq, if_pos hc] at hcl
              exact hcl
            · rw [hres, cleanup_snd_eq]
              have hne := checkmarxPathOf_ne_empty p
              simp [hne]
          · exfalso
            rw [Resolve_save_err env s p imgs dbg (checkmarxPathOf p) _
              f st out ims r e hval hx hg ha hs] at hnone
            simp at hnone
        · exfalso
          rw [Resolve_analyze_err env s p imgs dbg (checkmarxPathOf p) _
            f st out ims r e hval hx hg ha] at hnone
          simp at hnone
      · exfalso
        rw [Resolve_merge_err env s p imgs dbg (checkmarxPathOf p) _
          f st out ims e hval hx hg] at hnone
        simp at hnone
    · exfalso
      rw [Resolve_extract_err env s p imgs dbg (checkmarxPathOf p) _
        f st out e hval hx] at hnone
      simp at hnone
  refine ⟨⟨fun h => (key h).1, ?_⟩, fun h => (key h).2⟩
  rintro ⟨f, st, out, ims, r, hx, hg, ha, hs, hd⟩
  rw [Resolve_after_save env s p imgs dbg (checkmarxPathOf p) _
    f st out ims r hval hx hg ha hs]
  rw [cleanup_fst_eq]
  by_cases hc : out ≠ "" ∧ out ≠ p
  · rw [if_pos hc]
    exact hd hc
  · rw [if_neg hc]

/-- Witness for C3's amended claim in the all-success environment. -/
theorem c3_success_iff_witness :
    ((Resolve goodEnv "scan" "folder" ["image1"] true).1 = none ↔
      ∃ f st out ims r,
        goodEnv.extractFiles "scan" = (f, st, out, none) ∧
        goodEnv.extractAndMergeImagesFromFiles f (ToImageModels ["image1"])
          st = (ims, none) ∧
        goodEnv.analyzeImagesWithPlatform ims "linux/amd64" = (r, none) ∧
        goodEnv.saveObjectToFile (checkmarxPathOf "folder") r = none ∧
        (out ≠ "" ∧ out ≠ "folder" → goodEnv.deleteDirectory out = none)) ∧
    ((Resolve goodEnv "scan" "folder" ["image1"] true).1 = none →
      CallEvent.deleteDirCall (checkmarxPathOf "folder") ∈
        (Resolve goodEnv "scan" "folder" ["image1"] true).2) :=
  c3_success_iff goodEnv "scan" "folder" ["image1"] true rfl rfl

/-- Counterexample to C3 as stated: a run in which all four collaborator
calls succeed and `Resolve` returns nil, yet the results subdirectory is not
removed — its deletion was attempted and failed. -/
theorem c3_counterexample :
    (Resolve envCxDelErr "scan" "folder" ["image1"] true).1 = none ∧
    envCxDelErr.deleteDirectory (checkmarxPathOf "folder") = some errDel ∧
    CallEvent.deleteDirCall (checkmarxPathOf "folder") ∈
      (Resolve envCxDelErr "scan" "folder" ["image1"] true).2 := by
  decide
